import Mathlib

/-!
Verification of the deterministic math / broad-phase spatial indexing core
of the `autotank` simulation (`src/sim/src/util/math.rs`,
`src/sim/src/physics/collision.rs`, `src/sim/src/util/spatial.rs`).

Embedding notes.

The source's `Scalar` type is a fixed-precision decimal number (a 64-bit
decimal provided by an external library; the library itself is not part of
the repository's sources).  Every finite decimal value is a rational
number, so the development uses two layers:

* an exact layer where `Scalar` is modelled as `ℚ`, used for the
  operations that the decimal type computes exactly (comparisons,
  `min`/`max`, `clamp`, `floor`, conversion to `u32`) and for the
  spatial-grid claims, whose conclusions are forced by the index clamps
  and hence are independent of coefficient rounding;

* a fixed-precision layer `Dec` (a coefficient/exponent pair with all
  arithmetic rounded to 19 significant decimal digits, rounding half away
  from zero), modelled from the spec's description of the Scalar type
  ("fixed-precision decimal" with exact deterministic rounding), used for
  the claims that depend on rounding (`normalize`, `sqrt`, division).

`u32` values are modelled as `ℕ`; every theorem that needs freedom from
`u32` overflow carries the corresponding range hypothesis.
-/

/-- The exact layer's scalar: finite decimal values are rationals. -/
abbrev Scalar : Type := ℚ

/-- `Scalar::clamp(lo, hi)` from the decimal library: `lo` if the value is
below `lo`, `hi` if above `hi`, the value itself otherwise. -/
def clampS (x lo hi : Scalar) : Scalar :=
  if x < lo then lo else if hi < x then hi else x

/-- `Vec2` (src/sim/src/util/math.rs): an ordered pair of scalars. -/
structure Vec2 where
  x : Scalar
  y : Scalar
deriving DecidableEq

namespace Vec2

/-- `Vec2::new` (math.rs line 37). -/
def new (x y : Scalar) : Vec2 := ⟨x, y⟩

/-- `Vec2::zero` (math.rs line 32). -/
def zero : Vec2 := new 0 0

/-- `Vec2::add` (math.rs line 52). -/
def add (v w : Vec2) : Vec2 := new (v.x + w.x) (v.y + w.y)

/-- `Vec2::sub` (math.rs line 57). -/
def sub (v w : Vec2) : Vec2 := new (v.x - w.x) (v.y - w.y)

/-- `Vec2::dot` (math.rs line 62). -/
def dot (v w : Vec2) : Scalar := v.x * w.x + v.y * w.y

/-- `Vec2::cross` (math.rs line 67). -/
def cross (v w : Vec2) : Scalar := v.x * w.y - v.y * w.x

/-- `Vec2::length_squared` (math.rs line 72): `self.dot(self)`. -/
def length_squared (v : Vec2) : Scalar := v.dot v

end Vec2

/-- `AABB` (src/sim/src/physics/collision.rs): axis-aligned bounding box. -/
structure AABB where
  min : Vec2
  max : Vec2
deriving DecidableEq

namespace AABB

/-- `AABB::new` (collision.rs lines 14-19): componentwise min/max of the
two corner arguments. -/
def new (a b : Vec2) : AABB :=
  { min := Vec2.new (Min.min a.x b.x) (Min.min a.y b.y)
    max := Vec2.new (Max.max a.x b.x) (Max.max a.y b.y) }

/-- `AABB::new_from_size` (collision.rs lines 22-27):
`min = center - size/2`, `max = center + size/2`, with no normalization. -/
def new_from_size (center sz : Vec2) : AABB :=
  { min := Vec2.new (center.x - sz.x / 2) (center.y - sz.y / 2)
    max := Vec2.new (center.x + sz.x / 2) (center.y + sz.y / 2) }

end AABB

/-- `SpatialHashMap` (src/sim/src/util/spatial.rs lines 8-18).  Cells hold
sets of `u32` object ids, modelled as `Finset ℕ`; the `u32` grid cell
counts are modelled as `ℕ`. -/
structure SpatialHashMap where
  map_width : Scalar
  map_height : Scalar
  cell_width : Scalar
  inv_cell_width : Scalar
  cell_height : Scalar
  inv_cell_height : Scalar
  grid_width : ℕ
  grid_height : ℕ
  grid : List (Finset ℕ)

/-- `.floor().to_u32().unwrap_or(0)` (spatial.rs lines 47-66): the decimal
floor converted to `u32`, with `0` when the conversion fails (negative or
above `u32::MAX`). -/
def floorToU32 (q : Scalar) : ℕ :=
  if 0 ≤ ⌊q⌋ ∧ ⌊q⌋ ≤ 4294967295 then ⌊q⌋.toNat else 0

/-- Inclusive range `a..=b` of Rust, as a list (empty when `b < a`). -/
def rangeIncl (a b : ℕ) : List ℕ :=
  (List.range (b + 1 - a)).map (a + ·)

namespace SpatialHashMap

/-- `SpatialHashMap::new` (spatial.rs lines 21-36). -/
def new (map_width map_height : Scalar) (grid_width grid_height : ℕ) :
    SpatialHashMap :=
  let cell_width := map_width / (grid_width : Scalar)
  let cell_height := map_height / (grid_height : Scalar)
  { map_width := map_width
    map_height := map_height
    cell_width := cell_width
    inv_cell_width := 1 / cell_width
    cell_height := cell_height
    inv_cell_height := 1 / cell_height
    grid_width := grid_width
    grid_height := grid_height
    grid := List.replicate (grid_width * grid_height) ∅ }

/-- One axis of `keys_iter` (spatial.rs lines 41-66): clamp the coordinate
to `[0, dim]`, multiply by the inverse cell size, floor, convert to `u32`
(defaulting to 0), and clamp the index to `[0, count - 1]`. -/
def cellIdx (dim inv : Scalar) (count : ℕ) (coord : Scalar) : ℕ :=
  Min.min (floorToU32 (clampS coord 0 dim * inv)) (count - 1)

/-- `SpatialHashMap::keys_iter` (spatial.rs lines 39-74), materialized as
the list of produced keys, in iteration order (`y` outer, `x` inner,
linearized as `x + y * grid_width`). -/
def keysList (s : SpatialHashMap) (aabb : AABB) : List ℕ :=
  let min_x_idx := cellIdx s.map_width s.inv_cell_width s.grid_width aabb.min.x
  let min_y_idx := cellIdx s.map_height s.inv_cell_height s.grid_height aabb.min.y
  let max_x_idx := cellIdx s.map_width s.inv_cell_width s.grid_width aabb.max.x
  let max_y_idx := cellIdx s.map_height s.inv_cell_height s.grid_height aabb.max.y
  (rangeIncl min_y_idx max_y_idx).flatMap fun y =>
    (rangeIncl min_x_idx max_x_idx).map fun x => x + y * s.grid_width

/-- `if let Some(cell) = self.grid.get_mut(key) { cell.insert(object_id) }`
(spatial.rs lines 79-81): out-of-range keys leave the grid unchanged. -/
def gridInsert (g : List (Finset ℕ)) (key obj : ℕ) : List (Finset ℕ) :=
  match g.get? key with
  | some c => g.set key (Insert.insert obj c)
  | none => g

/-- `SpatialHashMap::insert` (spatial.rs lines 77-83). -/
def insert (s : SpatialHashMap) (object_id : ℕ) (aabb : AABB) :
    SpatialHashMap :=
  { s with
    grid := (s.keysList aabb).foldl (fun g key => gridInsert g key object_id)
      s.grid }

/-- `SpatialHashMap::get` (spatial.rs lines 86-88): the cell's set, or the
empty set when the key is out of range. -/
def get (s : SpatialHashMap) (key : ℕ) : Finset ℕ :=
  (s.grid.get? key).getD ∅

/-- `SpatialHashMap::query` (spatial.rs lines 91-101): the union of the
cells of all keys of `keys_iter` (out-of-range keys contribute nothing). -/
def query (s : SpatialHashMap) (aabb : AABB) : Finset ℕ :=
  (s.keysList aabb).foldl (fun acc key => acc ∪ (s.grid.get? key).getD ∅) ∅

/-- `SpatialHashMap::clear` (spatial.rs lines 104-108): every cell's set is
emptied in place. -/
def clear (s : SpatialHashMap) : SpatialHashMap :=
  { s with grid := s.grid.map fun _ => ∅ }

/-- Clamping both corners of an AABB to the map boundary, as described by
the spec's clamp-idempotence property. -/
def clampAABB (s : SpatialHashMap) (b : AABB) : AABB :=
  { min := Vec2.new (clampS b.min.x 0 s.map_width) (clampS b.min.y 0 s.map_height)
    max := Vec2.new (clampS b.max.x 0 s.map_width) (clampS b.max.y 0 s.map_height) }

/-- An AABB lying entirely outside the map rectangle
`[0, map_width] × [0, map_height]` (empty intersection with it). -/
def OutsideMap (s : SpatialHashMap) (b : AABB) : Prop :=
  b.max.x < 0 ∨ s.map_width < b.min.x ∨ b.max.y < 0 ∨ s.map_height < b.min.y

end SpatialHashMap

/-! ### Concrete instances used by the spec's scenarios -/

/-- The spec's 100×100 map with a 10×10 grid. -/
def grid100 : SpatialHashMap := SpatialHashMap.new 100 100 10 10

/-- The spec's AABB exactly at the map's max corner, (95,95)-(100,100). -/
def cornerAabb : AABB := AABB.new (Vec2.new 95 95) (Vec2.new 100 100)

/-- A 20×20 map with a 2×2 grid (from the repository's tests). -/
def grid20 : SpatialHashMap := SpatialHashMap.new 20 20 2 2

/-- An AABB entirely outside the 20×20 map (negative quadrant). -/
def outAabb : AABB := AABB.new (Vec2.new (-5) (-5)) (Vec2.new (-1) (-1))

/-! ### Fixed-precision decimal layer

Modelled from the spec: the underlying decimal library is not part of the
repository's sources; the spec describes `Scalar` as "a fixed-precision
decimal number" whose operations (including `sqrt` and division) have
"guaranteed-identical rounding".  The model below represents a decimal as
a coefficient/exponent pair with value `m * 10^e`, and rounds every
arithmetic result to `decPrec = 19` significant decimal digits (the full
digits of a 64-bit coefficient), rounding half away from zero.  Division
by zero yields the value 0 here; the point relevant to the claims is that
it yields some *value* (the real library produces a non-error value or a
process abort, never a checked error the caller must handle). -/

/-- A fixed-precision decimal value `m * 10^e`. -/
structure Dec where
  m : ℤ
  e : ℤ
deriving DecidableEq

/-- Modelled from the spec: the decimal type's precision in significant
decimal digits (a 64-bit coefficient carries 19 full digits). -/
def decPrec : ℕ := 19

/-- Number of base-10 digits of `n` (fuel-based structural recursion so
that the kernel can evaluate it). -/
def dlen : ℕ → ℕ → ℕ
  | 0, _ => 0
  | f + 1, n => if n < 10 then 1 else dlen f (n / 10) + 1

/-- Number of base-10 digits, with enough fuel for every value occurring
in this development. -/
def digits10 (n : ℕ) : ℕ := dlen 100 n

/-- Integer square root by Newton iteration (fuel-based). -/
def isqrtAux : ℕ → ℕ → ℕ → ℕ
  | 0, _, g => g
  | f + 1, n, g =>
    let g2 := (g + n / g) / 2
    if g2 < g then isqrtAux f n g2 else g

/-- Integer square root (floor of the real square root). -/
def isqrt (n : ℕ) : ℕ := if n ≤ 1 then n else isqrtAux 400 n n

/-- Modelled from the spec: rounding of an exact coefficient to
`decPrec` significant digits, half away from zero. -/
def roundD (x : Dec) : Dec :=
  let n := x.m.natAbs
  if n < 10 ^ decPrec then x
  else
    let d := digits10 n - decPrec
    let q := n / 10 ^ d
    let r := n % 10 ^ d
    let q2 := if 10 ^ d ≤ 2 * r then q + 1 else q
    ⟨if x.m < 0 then -(q2 : ℤ) else (q2 : ℤ), x.e + d⟩

/-- Modelled from the spec: decimal addition (exact sum, then rounded). -/
def addD (x y : Dec) : Dec :=
  if x.e ≤ y.e then roundD ⟨x.m + y.m * 10 ^ (y.e - x.e).toNat, x.e⟩
  else roundD ⟨y.m + x.m * 10 ^ (x.e - y.e).toNat, y.e⟩

/-- Modelled from the spec: decimal subtraction. -/
def subD (x y : Dec) : Dec := addD x ⟨-y.m, y.e⟩

/-- Modelled from the spec: decimal multiplication (exact product, then
rounded). -/
def mulD (x y : Dec) : Dec := roundD ⟨x.m * y.m, x.e + y.e⟩

/-- Modelled from the spec: decimal division, correctly rounded to
`decPrec` significant digits (half away from zero), with the
division-by-zero convention described above. -/
def divD (x y : Dec) : Dec :=
  if y.m = 0 ∨ x.m = 0 then ⟨0, 0⟩
  else
    let a := x.m.natAbs
    let b := y.m.natAbs
    let s := decPrec + digits10 b + 1
    let n := a * 10 ^ s
    let q := n / b
    let r := n % b
    let d := digits10 q - decPrec
    let m0 := q / 10 ^ d
    let m2 := if b * 10 ^ d ≤ 2 * b * (q % 10 ^ d) + 2 * r then m0 + 1 else m0
    ⟨if (0 < x.m) = (0 < y.m) then (m2 : ℤ) else -(m2 : ℤ), x.e - y.e - s + d⟩

/-- Modelled from the spec: decimal square root, correctly rounded to
`decPrec` significant digits (half away from zero); nonpositive input
yields 0. -/
def sqrtD (x : Dec) : Dec :=
  if x.m ≤ 0 then ⟨0, 0⟩
  else
    let p : ℕ × ℤ :=
      if x.e % 2 = 0 then (x.m.toNat, x.e / 2) else (x.m.toNat * 10, (x.e - 1) / 2)
    let u := decPrec + 2
    let c := p.1 * 10 ^ (2 * u)
    let s := isqrt c
    let d := digits10 s - decPrec
    let m0 := s / 10 ^ d
    let m2 := if ((2 * m0 + 1) * 10 ^ d) ^ 2 ≤ 4 * c then m0 + 1 else m0
    ⟨(m2 : ℤ), p.2 - u + d⟩

/-- Value equality of two decimals (`m1 * 10^e1 = m2 * 10^e2`), phrased
over the integers so that the kernel can evaluate it. -/
def Dec.veq (x y : Dec) : Prop :=
  x.m * 10 ^ (x.e - Min.min x.e y.e).toNat = y.m * 10 ^ (y.e - Min.min x.e y.e).toNat

instance (x y : Dec) : Decidable (Dec.veq x y) := by
  unfold Dec.veq
  infer_instance

/-- The rational value of a decimal. -/
def Dec.toRat (x : Dec) : ℚ := (x.m : ℚ) * (10 : ℚ) ^ x.e

/-- `Vec2` over the fixed-precision layer (math.rs, with the decimal
arithmetic made explicit). -/
structure Vec2D where
  x : Dec
  y : Dec
deriving DecidableEq

namespace Vec2D

/-- `Vec2::new` (math.rs line 37). -/
def new (x y : Dec) : Vec2D := ⟨x, y⟩

/-- `Vec2::zero` (math.rs line 32). -/
def zero : Vec2D := new ⟨0, 0⟩ ⟨0, 0⟩

/-- `Vec2::add` (math.rs line 52). -/
def add (v w : Vec2D) : Vec2D := new (addD v.x w.x) (addD v.y w.y)

/-- `Vec2::sub` (math.rs line 57). -/
def sub (v w : Vec2D) : Vec2D := new (subD v.x w.x) (subD v.y w.y)

/-- `Vec2::dot` (math.rs line 62). -/
def dot (v w : Vec2D) : Dec := addD (mulD v.x w.x) (mulD v.y w.y)

/-- `Vec2::cross` (math.rs line 67). -/
def cross (v w : Vec2D) : Dec := subD (mulD v.x w.y) (mulD v.y w.x)

/-- `Vec2::length_squared` (math.rs line 72). -/
def length_squared (v : Vec2D) : Dec := v.dot v

/-- `Vec2::normalize` (math.rs lines 85-88): divides both components by
`sqrt(length_squared())`, unconditionally — there is no error path. -/
def normalize (v : Vec2D) : Vec2D :=
  let length := sqrtD v.length_squared
  new (divD v.x length) (divD v.y length)

end Vec2D

/-- The vector (20, 21), whose length is exactly 29 but whose normalized
components 20/29 and 21/29 have no finite decimal representation. -/
def v2021 : Vec2D := Vec2D.new ⟨20, 0⟩ ⟨21, 0⟩

/-- The vector (3, 4) from the repository's own normalization test; its
normalization (0.6, 0.8) is exact in decimal. -/
def v34 : Vec2D := Vec2D.new ⟨3, 0⟩ ⟨4, 0⟩

/-! ### Operation sequences (for the determinism claim) -/

/-- A value produced by a Scalar/Vec2 computation. -/
inductive SVal where
  | s : Dec → SVal
  | v : Vec2D → SVal
deriving DecidableEq

/-- An expression over the Scalar/Vec2 operations of math.rs (the
computable subset of this embedding). -/
inductive SExpr where
  | litS : Dec → SExpr
  | litV : Dec → Dec → SExpr
  | addV : SExpr → SExpr → SExpr
  | subV : SExpr → SExpr → SExpr
  | dotE : SExpr → SExpr → SExpr
  | crossE : SExpr → SExpr → SExpr
  | len2 : SExpr → SExpr
  | normE : SExpr → SExpr
  | addS : SExpr → SExpr → SExpr
  | subS : SExpr → SExpr → SExpr
  | mulS : SExpr → SExpr → SExpr
  | divS : SExpr → SExpr → SExpr
  | sqrtS : SExpr → SExpr
deriving DecidableEq

/-- Evaluation of an operation sequence: a pure function of the
expression alone (type mismatches evaluate to `none`). -/
def evalE : SExpr → Option SVal
  | .litS q => some (.s q)
  | .litV a b => some (.v (Vec2D.new a b))
  | .addV a b =>
    match evalE a, evalE b with
    | some (.v x), some (.v y) => some (.v (x.add y))
    | _, _ => none
  | .subV a b =>
    match evalE a, evalE b with
    | some (.v x), some (.v y) => some (.v (x.sub y))
    | _, _ => none
  | .dotE a b =>
    match evalE a, evalE b with
    | some (.v x), some (.v y) => some (.s (x.dot y))
    | _, _ => none
  | .crossE a b =>
    match evalE a, evalE b with
    | some (.v x), some (.v y) => some (.s (x.cross y))
    | _, _ => none
  | .len2 a =>
    match evalE a with
    | some (.v x) => some (.s x.length_squared)
    | _ => none
  | .normE a =>
    match evalE a with
    | some (.v x) => some (.v x.normalize)
    | _ => none
  | .addS a b =>
    match evalE a, evalE b with
    | some (.s x), some (.s y) => some (.s (addD x y))
    | _, _ => none
  | .subS a b =>
    match evalE a, evalE b with
    | some (.s x), some (.s y) => some (.s (subD x y))
    | _, _ => none
  | .mulS a b =>
    match evalE a, evalE b with
    | some (.s x), some (.s y) => some (.s (mulD x y))
    | _, _ => none
  | .divS a b =>
    match evalE a, evalE b with
    | some (.s x), some (.s y) => some (.s (divD x y))
    | _, _ => none
  | .sqrtS a =>
    match evalE a with
    | some (.s x) => some (.s (sqrtD x))
    | _ => none

/-! ### Helper lemmas -/

theorem mem_rangeIncl {a b k : ℕ} : k ∈ rangeIncl a b ↔ a ≤ k ∧ k ≤ b := by
  simp only [rangeIncl, List.mem_map, List.mem_range]
  constructor
  · rintro ⟨i, hi, rfl⟩
    omega
  · rintro ⟨h1, h2⟩
    exact ⟨k - a, by omega, by omega⟩

theorem cellIdx_le_count (dim inv : Scalar) (count : ℕ) (coord : Scalar) :
    SpatialHashMap.cellIdx dim inv count coord ≤ count - 1 :=
  Nat.min_le_right _ _

/-- Every key produced by `keys_iter` is below `grid_width * grid_height`:
forced by the final index clamps alone. -/
theorem keysList_lt (s : SpatialHashMap) (h1 : 1 ≤ s.grid_width)
    (h2 : 1 ≤ s.grid_height) (aabb : AABB) {k : ℕ}
    (hk : k ∈ s.keysList aabb) : k < s.grid_width * s.grid_height := by
  simp only [SpatialHashMap.keysList, List.mem_flatMap, List.mem_map] at hk
  obtain ⟨y, hy, x, hx, rfl⟩ := hk
  have hy2 : y ≤ s.grid_height - 1 :=
    le_trans (mem_rangeIncl.mp hy).2 (cellIdx_le_count _ _ _ _)
  have hx2 : x ≤ s.grid_width - 1 :=
    le_trans (mem_rangeIncl.mp hx).2 (cellIdx_le_count _ _ _ _)
  have hmul : y * s.grid_width ≤ (s.grid_height - 1) * s.grid_width :=
    Nat.mul_le_mul_right _ hy2
  have hsub : (s.grid_height - 1) * s.grid_width
      = s.grid_height * s.grid_width - s.grid_width := by
    rw [Nat.sub_mul, one_mul]
  have hge : s.grid_width ≤ s.grid_height * s.grid_width :=
    Nat.le_mul_of_pos_left _ h2
  have hcomm : s.grid_height * s.grid_width = s.grid_width * s.grid_height :=
    Nat.mul_comm _ _
  omega

/-- Evaluation of `keys_iter` on the spec's corner scenario: the AABB
(95,95)-(100,100) on the 100×100 map with the 10×10 grid produces exactly
the key 99. -/
theorem keys100 : grid100.keysList cornerAabb = [99] := by
  simp only [grid100, cornerAabb, SpatialHashMap.new, SpatialHashMap.keysList,
    SpatialHashMap.cellIdx, floorToU32, clampS, AABB.new, Vec2.new]
  norm_num [min_def, max_def]
  decide

theorem length_gridInsert (g : List (Finset ℕ)) (key obj : ℕ) :
    (SpatialHashMap.gridInsert g key obj).length = g.length := by
  unfold SpatialHashMap.gridInsert
  cases h : g.get? key <;> simp

theorem mem_gridInsert_self {g : List (Finset ℕ)} {key obj : ℕ}
    (hk : key < g.length) :
    obj ∈ ((SpatialHashMap.gridInsert g key obj).get? key).getD ∅ := by
  unfold SpatialHashMap.gridInsert
  cases h : g.get? key with
  | none =>
    rw [List.get?_eq_none] at h
    omega
  | some c =>
    rw [List.get?_set_eq_of_lt _ hk]
    simp

theorem mem_gridInsert_mono {g : List (Finset ℕ)} {key k2 o2 x : ℕ}
    (hx : x ∈ (g.get? key).getD ∅) :
    x ∈ ((SpatialHashMap.gridInsert g k2 o2).get? key).getD ∅ := by
  unfold SpatialHashMap.gridInsert
  cases h : g.get? k2 with
  | none => exact hx
  | some c =>
    by_cases hk : k2 = key
    · subst hk
      obtain ⟨hlen, -⟩ := List.get?_eq_some.mp h
      rw [List.get?_set_eq_of_lt _ hlen]
      rw [h] at hx
      simp at hx ⊢
      exact Or.inr hx
    · rw [List.get?_set_ne _ _ hk]
      exact hx

theorem mem_foldl_gridInsert_of_mem {obj x key : ℕ} :
    ∀ (keys : List ℕ) (g : List (Finset ℕ)),
      x ∈ (g.get? key).getD ∅ →
      x ∈ ((keys.foldl (fun g k => SpatialHashMap.gridInsert g k obj) g).get? key).getD ∅ := by
  intro keys
  induction keys with
  | nil => intro g hx; exact hx
  | cons hd t ih => intro g hx; exact ih _ (mem_gridInsert_mono hx)

theorem mem_foldl_gridInsert {obj key : ℕ} :
    ∀ (keys : List ℕ) (g : List (Finset ℕ)),
      key ∈ keys → key < g.length →
      obj ∈ ((keys.foldl (fun g k => SpatialHashMap.gridInsert g k obj) g).get? key).getD ∅ := by
  intro keys
  induction keys with
  | nil => intro g hmem; cases hmem
  | cons hd t ih =>
    intro g hmem hlen
    rcases List.mem_cons.mp hmem with rfl | hmem'
    · exact mem_foldl_gridInsert_of_mem t _ (mem_gridInsert_self hlen)
    · exact ih _ hmem' (by rw [length_gridInsert]; exact hlen)

theorem cell_clear (s : SpatialHashMap) (k : ℕ) :
    (((SpatialHashMap.clear s).grid.get? k).getD ∅ : Finset ℕ) = ∅ := by
  simp only [SpatialHashMap.clear]
  rw [List.get?_map]
  cases s.grid.get? k <;> simp

theorem foldl_union_empty (l : List ℕ) (f : ℕ → Finset ℕ) (hf : ∀ k, f k = ∅) :
    ∀ acc : Finset ℕ, l.foldl (fun a k => a ∪ f k) acc = acc := by
  induction l with
  | nil => intro acc; rfl
  | cons hd t ih =>
    intro acc
    rw [List.foldl_cons, hf, Finset.union_empty]
    exact ih acc

theorem clampS_idem {x hi : Scalar} (h : 0 ≤ hi) :
    clampS (clampS x 0 hi) 0 hi = clampS x 0 hi := by
  unfold clampS
  split_ifs <;> first | rfl | linarith

theorem cellIdx_clamp (dim inv : Scalar) (count : ℕ) (coord : Scalar)
    (h : 0 ≤ dim) :
    SpatialHashMap.cellIdx dim inv count (clampS coord 0 dim)
      = SpatialHashMap.cellIdx dim inv count coord := by
  unfold SpatialHashMap.cellIdx
  rw [clampS_idem h]

theorem Dec.toRat_shift (x : Dec) (mn : ℤ) (h : mn ≤ x.e) :
    x.toRat = ((x.m * 10 ^ (x.e - mn).toNat : ℤ) : ℚ) * (10 : ℚ) ^ mn := by
  unfold Dec.toRat
  push_cast
  rw [← zpow_natCast (10 : ℚ) (x.e - mn).toNat, Int.toNat_of_nonneg (by omega),
    mul_assoc, ← zpow_add₀ (by norm_num : (10 : ℚ) ≠ 0)]
  congr 2
  omega

/-- The integer-level value equality `Dec.veq` coincides with equality of
the rational values. -/
theorem Dec.veq_iff (x y : Dec) : x.veq y ↔ x.toRat = y.toRat := by
  have hx := Dec.toRat_shift x (Min.min x.e y.e) (min_le_left _ _)
  have hy := Dec.toRat_shift y (Min.min x.e y.e) (min_le_right _ _)
  unfold Dec.veq
  rw [hx, hy]
  constructor
  · intro h
    rw [h]
  · intro h
    have h10 : (10 : ℚ) ^ Min.min x.e y.e ≠ 0 := zpow_ne_zero _ (by norm_num)
    exact_mod_cast mul_right_cancel₀ h10 h

/-! ### Claim theorems -/

/-- C1: the claim asserts that `Vec2::normalize` on the zero vector
signals a defined, checked error condition the caller must handle.  The
source has no such path: `normalize` unconditionally returns a `Vec2`,
dividing by `sqrt(length_squared())`, which is 0 for the zero vector —
the first conjunct exhibits the zero divisor, the second the sentinel
value the total function returns under the model's division-by-zero
convention.  No checked failure is produced, so the code contradicts the
spec's stated requirement. -/
theorem c1_normalize_zero_no_checked_failure :
    (sqrtD (Vec2D.length_squared Vec2D.zero)).veq ⟨0, 0⟩ ∧
    Vec2D.normalize Vec2D.zero = Vec2D.new ⟨0, 0⟩ ⟨0, 0⟩ := by
  decide

/-- C2 counterexample: `AABB::new_from_size` with the negative size
vector (-2,-2) around the origin yields `min = (1,1)`, `max = (-1,-1)`,
violating the claimed invariant `min.x <= max.x ∧ min.y <= max.y`. -/
theorem c2_counterexample :
    ¬ (((AABB.new_from_size (Vec2.new 0 0) (Vec2.new (-2) (-2))).min.x ≤
          (AABB.new_from_size (Vec2.new 0 0) (Vec2.new (-2) (-2))).max.x) ∧
        ((AABB.new_from_size (Vec2.new 0 0) (Vec2.new (-2) (-2))).min.y ≤
          (AABB.new_from_size (Vec2.new 0 0) (Vec2.new (-2) (-2))).max.y)) := by
  simp only [AABB.new_from_size, Vec2.new]
  norm_num

/-- C2 (amended): `AABB::new` always satisfies the componentwise
invariant `min <= max`; `AABB::new_from_size` satisfies it whenever both
size components are nonnegative (it performs no normalization). -/
theorem c2_construction_invariant :
    (∀ a b : Vec2,
      (AABB.new a b).min.x ≤ (AABB.new a b).max.x ∧
      (AABB.new a b).min.y ≤ (AABB.new a b).max.y) ∧
    (∀ center sz : Vec2, 0 ≤ sz.x → 0 ≤ sz.y →
      (AABB.new_from_size center sz).min.x ≤ (AABB.new_from_size center sz).max.x ∧
      (AABB.new_from_size center sz).min.y ≤ (AABB.new_from_size center sz).max.y) := by
  constructor
  · intro a b
    simp only [AABB.new, Vec2.new]
    exact ⟨min_le_max, min_le_max⟩
  · intro c sz hx hy
    simp only [AABB.new_from_size, Vec2.new]
    constructor <;> linarith

/-- C2 witness: the amended invariant instantiated at center (1,1) and
the nonnegative size (2,4). -/
theorem c2_witness :
    ((0:ℚ) ≤ (Vec2.new 2 4).x) ∧ ((0:ℚ) ≤ (Vec2.new 2 4).y) ∧
    ((AABB.new_from_size (Vec2.new 1 1) (Vec2.new 2 4)).min.x ≤
      (AABB.new_from_size (Vec2.new 1 1) (Vec2.new 2 4)).max.x) ∧
    ((AABB.new_from_size (Vec2.new 1 1) (Vec2.new 2 4)).min.y ≤
      (AABB.new_from_size (Vec2.new 1 1) (Vec2.new 2 4)).max.y) :=
  ⟨by norm_num [Vec2.new], by norm_num [Vec2.new],
   (c2_construction_invariant.2 _ _ (by norm_num [Vec2.new]) (by norm_num [Vec2.new])).1,
   (c2_construction_invariant.2 _ _ (by norm_num [Vec2.new]) (by norm_num [Vec2.new])).2⟩

/-- C3 counterexample: for the nonzero vector (20, 21) (length exactly
29), `v.normalize().length_squared()` is 0.9999999999999999999, not
exactly 1, in the 19-significant-digit decimal arithmetic: the divisions
20/29 and 21/29 round, and the rounding does not cancel. -/
theorem c3_counterexample :
    v2021 ≠ Vec2D.zero ∧
    (Vec2D.length_squared (Vec2D.normalize v2021)).toRat ≠ 1 := by
  refine ⟨by decide, fun h => ?_⟩
  have h1 : Dec.toRat ⟨1, 0⟩ = 1 := by norm_num [Dec.toRat]
  have h2 : (Vec2D.length_squared (Vec2D.normalize v2021)).veq ⟨1, 0⟩ :=
    (Dec.veq_iff _ _).mpr (by rw [h, h1])
  exact absurd h2 (by decide)

/-- C3 (amended): exact equality `v.normalize().length_squared() = 1`
holds when the normalization arithmetic is exact in the fixed-precision
decimal representation — as for the repository's own test vector (3, 4),
whose normalization (0.6, 0.8) is exact — but not for every nonzero
vector. -/
theorem c3_exact_case :
    (Vec2D.length_squared (Vec2D.normalize v34)).toRat = 1 :=
  ((Dec.veq_iff (Vec2D.length_squared (Vec2D.normalize v34)) ⟨1, 0⟩).mp
    (by decide)).trans (by norm_num [Dec.toRat])

/-- C4: on the 100×100 map with the 10×10 grid, `keys_iter` of the AABB
(95,95)-(100,100) — whose max corner coordinates equal the map dimension
and floor to index 10, clamped to 9 — yields exactly the single key 99;
and no AABB whatsoever produces a key beyond the 100-cell grid. -/
theorem c4_corner_scenario :
    grid100.keysList cornerAabb = [99] ∧
    ∀ (aabb : AABB) (k : ℕ), k ∈ grid100.keysList aabb → k < 100 := by
  refine ⟨keys100, ?_⟩
  intro aabb k hk
  exact keysList_lt grid100 (by show 1 ≤ 10; decide) (by show 1 ≤ 10; decide) aabb hk

/-- C4 witness: the key 99 is produced for the corner AABB and lies
within the grid. -/
theorem c4_witness : (99:ℕ) ∈ grid100.keysList cornerAabb ∧ 99 < 100 :=
  ⟨by rw [keys100]; exact List.mem_singleton.mpr rfl,
   c4_corner_scenario.2 cornerAabb 99 (by rw [keys100]; exact List.mem_singleton.mpr rfl)⟩

/-- C5: grid membership soundness.  For every grid state whose cell
vector has the constructed length `grid_width * grid_height` (as every
grid built by `new` and maintained by `insert`/`clear` does) with at
least one cell per axis, after `insert(object_id, aabb)` every key of
`keys_iter(aabb)` satisfies `object_id ∈ get(key)`. -/
theorem c5_membership_soundness (s : SpatialHashMap)
    (hlen : s.grid.length = s.grid_width * s.grid_height)
    (h1 : 1 ≤ s.grid_width) (h2 : 1 ≤ s.grid_height)
    (object_id : ℕ) (aabb : AABB) (key : ℕ) (hk : key ∈ s.keysList aabb) :
    object_id ∈ (s.insert object_id aabb).get key := by
  have hb : key < s.grid.length := by
    rw [hlen]
    exact keysList_lt s h1 h2 aabb hk
  simp only [SpatialHashMap.insert, SpatialHashMap.get]
  exact mem_foldl_gridInsert _ _ hk hb

/-- C5 witness: inserting object 7 with the corner AABB into the 100×100
grid makes `get 99` contain 7. -/
theorem c5_witness :
    grid100.grid.length = grid100.grid_width * grid100.grid_height ∧
    (7:ℕ) ∈ (grid100.insert 7 cornerAabb).get 99 :=
  ⟨by simp [grid100, SpatialHashMap.new],
   c5_membership_soundness grid100 (by simp [grid100, SpatialHashMap.new])
     (by show 1 ≤ 10; decide) (by show 1 ≤ 10; decide) 7 cornerAabb 99
     (by rw [keys100]; exact List.mem_singleton.mpr rfl)⟩

/-- C6: determinism.  Evaluation of an operation sequence over
Scalar/Vec2 values is a pure function of the sequence: two executions of
the same sequence produce identical output values. -/
theorem c6_determinism (e1 e2 : SExpr) (h : e1 = e2) : evalE e1 = evalE e2 := by
  rw [h]

/-- C6 witness: two evaluations of the normalization of (3, 4) agree. -/
theorem c6_witness :
    SExpr.normE (SExpr.litV ⟨3, 0⟩ ⟨4, 0⟩) = SExpr.normE (SExpr.litV ⟨3, 0⟩ ⟨4, 0⟩) ∧
    evalE (SExpr.normE (SExpr.litV ⟨3, 0⟩ ⟨4, 0⟩))
      = evalE (SExpr.normE (SExpr.litV ⟨3, 0⟩ ⟨4, 0⟩)) :=
  ⟨rfl, c6_determinism _ _ rfl⟩

/-- C7: commutativity of AABB construction — `AABB::new(a, b)` equals
`AABB::new(b, a)` for every pair of corner vectors. -/
theorem c7_aabb_new_commutative (a b : Vec2) : AABB.new a b = AABB.new b a := by
  simp only [AABB.new, Vec2.new, AABB.mk.injEq, Vec2.mk.injEq]
  exact ⟨⟨min_comm _ _, min_comm _ _⟩, max_comm _ _, max_comm _ _⟩

/-- C8: clamp idempotence.  For a map with nonnegative dimensions and an
AABB entirely outside the map rectangle, `keys_iter` of the AABB with
both corners clamped to the map boundary produces the same keys as
`keys_iter` of the original AABB (the proof uses only that the
coordinate clamp of `keys_iter` is idempotent, so the outside hypothesis
is not needed beyond matching the claim's statement). -/
theorem c8_clamp_idempotence (s : SpatialHashMap) (hw : 0 ≤ s.map_width)
    (hh : 0 ≤ s.map_height) (aabb : AABB) (hout : s.OutsideMap aabb) :
    s.keysList (s.clampAABB aabb) = s.keysList aabb := by
  simp only [SpatialHashMap.keysList, SpatialHashMap.clampAABB, Vec2.new]
  rw [cellIdx_clamp _ _ _ _ hw, cellIdx_clamp _ _ _ _ hw,
    cellIdx_clamp _ _ _ _ hh, cellIdx_clamp _ _ _ _ hh]

/-- C8 witness: the AABB (-5,-5)-(-1,-1), entirely outside the 20×20
map, keys identically to its clamped image. -/
theorem c8_witness :
    (0:ℚ) ≤ grid20.map_width ∧ grid20.OutsideMap outAabb ∧
    grid20.keysList (grid20.clampAABB outAabb) = grid20.keysList outAabb :=
  ⟨by show (0:ℚ) ≤ 20; norm_num,
   Or.inl (show outAabb.max.x < 0 by norm_num [outAabb, AABB.new, Vec2.new, max_def]),
   c8_clamp_idempotence grid20 (by show (0:ℚ) ≤ 20; norm_num)
     (by show (0:ℚ) ≤ 20; norm_num) outAabb
     (Or.inl (show outAabb.max.x < 0 by norm_num [outAabb, AABB.new, Vec2.new, max_def]))⟩

/-- C9: clear completeness and frame.  After `clear()`, `query` returns
the empty set for every AABB, and every field other than the per-cell
membership sets — the map dimensions, cell sizes, their inverses, the
grid cell counts, and even the number of cells — is unchanged. -/
theorem c9_clear_completeness (s : SpatialHashMap) (aabb : AABB) :
    (SpatialHashMap.clear s).query aabb = ∅ ∧
    (SpatialHashMap.clear s).map_width = s.map_width ∧
    (SpatialHashMap.clear s).map_height = s.map_height ∧
    (SpatialHashMap.clear s).cell_width = s.cell_width ∧
    (SpatialHashMap.clear s).inv_cell_width = s.inv_cell_width ∧
    (SpatialHashMap.clear s).cell_height = s.cell_height ∧
    (SpatialHashMap.clear s).inv_cell_height = s.inv_cell_height ∧
    (SpatialHashMap.clear s).grid_width = s.grid_width ∧
    (SpatialHashMap.clear s).grid_height = s.grid_height ∧
    (SpatialHashMap.clear s).grid.length = s.grid.length := by
  refine ⟨?_, rfl, rfl, rfl, rfl, rfl, rfl, rfl, rfl,
    by simp [SpatialHashMap.clear]⟩
  simp only [SpatialHashMap.query]
  exact foldl_union_empty _ _ (cell_clear s) ∅

/-- C10: for every grid constructed with at least one cell per axis and
`grid_width * grid_height` within `u32` range, every key produced by
`keys_iter` for any AABB is strictly below `grid_width * grid_height`
and hence below the length of the cell vector, so the bounds checks in
`insert` and `query` never discard a key. -/
theorem c10_keys_in_range (w h : Scalar) (gw gh : ℕ) (h1 : 1 ≤ gw)
    (h2 : 1 ≤ gh) (h3 : gw * gh < 4294967296) (aabb : AABB) (k : ℕ)
    (hk : k ∈ (SpatialHashMap.new w h gw gh).keysList aabb) :
    k < gw * gh ∧ k < (SpatialHashMap.new w h gw gh).grid.length := by
  have hb := keysList_lt (SpatialHashMap.new w h gw gh) h1 h2 aabb hk
  exact ⟨hb, by simpa [SpatialHashMap.new] using hb⟩

/-- C10 witness: key 99 of the corner AABB on the 10×10 grid lies within
both bounds. -/
theorem c10_witness :
    (99:ℕ) < 10 * 10 ∧ (99:ℕ) < (SpatialHashMap.new (100:ℚ) 100 10 10).grid.length :=
  c10_keys_in_range 100 100 10 10 (by decide) (by decide) (by decide) cornerAabb 99
    (by rw [show (SpatialHashMap.new (100:ℚ) 100 10 10).keysList cornerAabb = [99] from keys100]
        exact List.mem_singleton.mpr rfl)
